import Mathlib

/-!
Shallow embedding of `onnx_validate_furiosa_runtime.py`: the model-file
resolution in `main` (lines 126-134), the streaming evaluation loop of
`main` (lines 132-174), and `accuracy_np` (lines 177-181).  Scores are
embedded as rationals, inference durations as exact nanosecond counts
(naturals), wall-clock iteration times as rationals.  The dataset loader
and the inference session are external collaborators: a batch therefore
carries the session's output for that batch and its measured durations as
parameters.
-/

/-- Modelled from the spec: `utils.AverageMeter`, imported by the script
from the repository's `utils` module, which is not part of the source file.
Spec section 3 (RunningAverage): holds `value` (most recent sample), `sum`,
`count`, `average = sum/count`; created at loop start with count = 0;
updated once per batch via `update(sample, weight)` which performs
`sum += sample*weight; count += weight; value = sample`. -/
structure AverageMeter where
  val : ℚ
  sum : ℚ
  count : ℚ
deriving DecidableEq, Repr

/-- Modelled from the spec: a fresh meter, `count = 0`. -/
def AverageMeter.init : AverageMeter := ⟨0, 0, 0⟩

/-- Modelled from the spec: `update(sample, weight)`. -/
def AverageMeter.update (m : AverageMeter) (v : ℚ) (n : ℚ) : AverageMeter :=
  { val := v, sum := m.sum + v * n, count := m.count + n }

/-- Modelled from the spec: `average = sum / count`. -/
def AverageMeter.avg (m : AverageMeter) : ℚ := m.sum / m.count

/-- Embeds `np.argsort(output, axis=1)` on one row: the indices
`0..C-1` sorted by ascending score.  A stable sort is used; the spec
declares tie-breaking not semantically significant. -/
def argsortRow (row : List ℚ) : List ℕ :=
  (List.range row.length).insertionSort (fun i j => row.getD i 0 ≤ row.getD j 0)

/-- Embeds `max_indices = np.argsort(output, axis=1)[:, ::-1]` (line 178)
on one row: indices sorted by descending score. -/
def max_indices (row : List ℚ) : List ℕ :=
  (argsortRow row).reverse

/-- One row's contribution to `np.equal(max_indices[:, 0], target)`
(line 180): 1 when the highest-scoring class index equals the label. -/
def rowTop1Hit (row : List ℚ) (t : ℕ) : ℕ :=
  if (max_indices row).head? = some t then 1 else 0

/-- One row's contribution to
`np.equal(max_indices[:, :5], target[:, np.newaxis]).sum(axis=1)`
(line 179): how many of the five highest-scoring class indices equal the
label. -/
def rowTop5Count (row : List ℚ) (t : ℕ) : ℕ :=
  ((max_indices row).take 5).countP (fun j => decide (j = t))

/-- Embeds `accuracy_np(output, target)` (lines 177-181): returns
`(top1, top5)`, each 100 times the mean over samples of the per-row hit
counts.  Rows of `output` pair with entries of `target` positionally
(numpy broadcasting requires equal lengths). -/
def accuracy_np (output : List (List ℚ)) (target : List ℕ) : ℚ × ℚ :=
  let pairs := output.zip target
  let top5 : ℚ := 100 * ((pairs.map fun p => (rowTop5Count p.1 p.2 : ℚ)).sum / pairs.length)
  let top1 : ℚ := 100 * ((pairs.map fun p => (rowTop1Hit p.1 p.2 : ℚ)).sum / pairs.length)
  (top1, top5)

/-- Value bound to the `graph` variable in `main` (lines 126-130): the raw
file bytes for a `.dfg` model, the path string itself for an `.onnx`
model. -/
inductive Graph where
  | bytes (data : List ℕ)
  | path (p : String)
deriving DecidableEq, Repr

/-- Ways a run can abort: a Python-level fault (`NameError` for the unbound
`graph` variable, `ZeroDivisionError` for `/` by zero) versus an explicit
error message raised deliberately.  The reference script only ever produces
the fault constructors. -/
inductive RunError where
  | nameError
  | zeroDivisionFault
  | explicitError (msg : String)
deriving DecidableEq, Repr

/-- Embeds Python's `str.endswith(suffix)`: true exactly when `suffix` is a
suffix of the string, checked on the character sequences. -/
def endswith (p : String) (suffix : String) : Bool :=
  suffix.data.isSuffixOf p.data

/-- Embeds lines 126-134: `graph` is assigned only under the two
`endswith` tests (`.dfg` gives the file bytes via `open(...).read()`,
`.onnx` gives the path itself); with neither suffix the name stays unbound
and its use at `furiosa.runtime.session.create(graph)` raises `NameError`.
`fs` models the filesystem, i.e. `open(p, "rb").read()`. -/
def resolveGraph (fs : String → List ℕ) (p : String) : Except RunError Graph :=
  let g0 : Option Graph := none
  let g1 : Option Graph := if endswith p ".dfg" then some (Graph.bytes (fs p)) else g0
  let g2 : Option Graph := if endswith p ".onnx" then some (Graph.path p) else g1
  match g2 with
  | some g => Except.ok g
  | none => Except.error RunError.nameError

/-- One loader iteration together with the quantities the loop body reads:
the session output for the batch (the inference engine is external, so its
per-batch result is a parameter), the label vector, the duration of the
`session.run` call in nanoseconds (the `time.perf_counter_ns` pair of
lines 138-140), the time spent outside the inference call during the
iteration (data loading etc.), and the wall-clock `time.time() - end` span
of the iteration (line 149).  The batch size `input.size(0)` equals the
label count by the loader contract. -/
structure Batch where
  output : List (List ℚ)
  target : List ℕ
  inferNs : ℕ
  loadNs : ℕ
  batchTimeSec : ℚ
deriving DecidableEq, Repr

/-- Embeds `input.size(0)`: the number of samples in the batch. -/
def Batch.size (b : Batch) : ℕ := b.target.length

/-- Mutable state of the loop in `main`: the three meters (lines 121-123),
`total_predictions` and `elapsed_time` (lines 132-133, nanoseconds), and
the indices of the batches for which a progress line was printed
(line 152). -/
structure LoopState where
  batch_time : AverageMeter
  top1 : AverageMeter
  top5 : AverageMeter
  total_predictions : ℕ
  elapsed_time : ℕ
  printed : List ℕ
deriving DecidableEq, Repr

/-- State right before the loop starts. -/
def initState : LoopState :=
  { batch_time := AverageMeter.init, top1 := AverageMeter.init,
    top5 := AverageMeter.init, total_predictions := 0, elapsed_time := 0,
    printed := [] }

/-- One iteration of `for i, (input, target) in enumerate(loader)`
(lines 136-166): accumulate the inference duration into `elapsed_time`,
update the accuracy meters with the `accuracy_np` percentages weighted by
`input.size(0)`, update the batch-time meter with weight 1, increment
`total_predictions` by 1, and emit a progress line when
`i % print_freq == 0`. -/
def stepBatch (printFreq : ℕ) (s : LoopState) (ib : ℕ × Batch) : LoopState :=
  let i := ib.1
  let b := ib.2
  let prec := accuracy_np b.output b.target
  { batch_time := s.batch_time.update b.batchTimeSec 1
    top1 := s.top1.update prec.1 (b.size : ℚ)
    top5 := s.top5.update prec.2 (b.size : ℚ)
    total_predictions := s.total_predictions + 1
    elapsed_time := s.elapsed_time + b.inferNs
    printed := if i % printFreq = 0 then s.printed ++ [i] else s.printed }

/-- The whole loop of `main` over the batches the loader yields, with
`enumerate` supplying the zero-based batch index. -/
def runLoop (printFreq : ℕ) (batches : List Batch) : LoopState :=
  batches.enum.foldl (stepBatch printFreq) initState

/-- Embeds line 173, `latency = elapsed_time / total_predictions`: a Python
division that raises `ZeroDivisionError` when `total_predictions == 0`. -/
def finalLatency (s : LoopState) : Except RunError ℚ :=
  if s.total_predictions = 0 then Except.error RunError.zeroDivisionFault
  else Except.ok ((s.elapsed_time : ℚ) / (s.total_predictions : ℚ))

/-- Number printed by line 174 as `Average Latency: ... ms`, i.e.
`elapsed_time / total_predictions / 1_000_000`; meaningful only when
`total_predictions > 0` (see `finalLatency`). -/
def finalLatencyMs (s : LoopState) : ℚ :=
  (s.elapsed_time : ℚ) / (s.total_predictions : ℚ) / 1000000

/-- Embeds line 161: `rate_avg = input.size(0) / batch_time.avg`, the
throughput figure of the progress line. -/
def rate_avg (batchTimeAvg : ℚ) (batchSize : ℚ) : ℚ := batchSize / batchTimeAvg

/-- Embeds line 162: `ms_avg = 100 * batch_time.avg / input.size(0)`, the
value printed under the label `ms/sample`. -/
def ms_avg (batchTimeAvg : ℚ) (batchSize : ℚ) : ℚ := 100 * batchTimeAvg / batchSize

/-- Per-sample latency in milliseconds of an average batch time measured in
seconds: the conversion the spec asks the progress line to show. -/
def specMsPerSample (batchTimeAvg : ℚ) (batchSize : ℚ) : ℚ :=
  1000 * batchTimeAvg / batchSize

/-- Folding the meter updates the loop performs for one accuracy meter,
with `f` the percentage and `w` the weight taken from each batch. -/
def meterFold (f : Batch → ℚ) (w : Batch → ℚ) (l : List Batch) (m : AverageMeter) :
    AverageMeter :=
  l.foldl (fun acc b => acc.update (f b) (w b)) m

/-- Concrete one-sample batch used to instantiate the loop theorems: the
session scores class 0 highest and the label is 0. -/
def sampleBatch : Batch :=
  { output := [[1, 0]], target := [0], inferNs := 5, loadNs := 3, batchTimeSec := 1 }

/-! ### Helper lemmas about `accuracy_np` -/

theorem argsortRow_perm (row : List ℚ) : (argsortRow row).Perm (List.range row.length) :=
  List.perm_insertionSort _ _

theorem max_indices_perm (row : List ℚ) : (max_indices row).Perm (List.range row.length) :=
  (List.reverse_perm _).trans (argsortRow_perm row)

theorem max_indices_nodup (row : List ℚ) : (max_indices row).Nodup :=
  ((max_indices_perm row).nodup_iff).mpr (List.nodup_range _)

theorem rowTop5Count_eq_one (row : List ℚ) (t : ℕ)
    (h : (max_indices row).head? = some t) : rowTop5Count row t = 1 := by
  unfold rowTop5Count
  have hnd := max_indices_nodup row
  cases hmi : max_indices row with
  | nil => rw [hmi] at h; exact absurd h (by simp)
  | cons a l' =>
    rw [hmi] at h hnd
    have ha : a = t := by simpa using h
    subst ha
    have hnotmem : a ∉ l' := (List.nodup_cons.mp hnd).1
    have ht : (a :: l').take 5 = a :: l'.take 4 := rfl
    rw [ht, List.countP_cons]
    have h0 : List.countP (fun j => decide (j = a)) (l'.take 4) = 0 := by
      rw [List.countP_eq_zero]
      intro j hj
      simp only [decide_eq_true_eq]
      intro hja
      exact hnotmem (hja ▸ List.mem_of_mem_take hj)
    simp [h0]

theorem rowTop1Hit_le_rowTop5Count (row : List ℚ) (t : ℕ) :
    rowTop1Hit row t ≤ rowTop5Count row t := by
  unfold rowTop1Hit
  by_cases h : (max_indices row).head? = some t
  · rw [if_pos h, rowTop5Count_eq_one row t h]
  · rw [if_neg h]
    exact Nat.zero_le _

theorem sum_map_cast_eq_length {α : Type} (f : α → ℕ) (l : List α)
    (h : ∀ x ∈ l, f x = 1) : (l.map fun x => (f x : ℚ)).sum = l.length := by
  induction l with
  | nil => simp
  | cons a l ih =>
    simp only [List.map_cons, List.sum_cons, List.length_cons]
    rw [h a (List.mem_cons_self a l), ih (fun x hx => h x (List.mem_cons_of_mem a hx))]
    push_cast
    ring

theorem accuracy_np_all_correct (output : List (List ℚ)) (target : List ℕ)
    (hlen : output.length = target.length) (hpos : 0 < target.length)
    (hhit : ∀ p ∈ output.zip target, (max_indices p.1).head? = some p.2) :
    accuracy_np output target = (100, 100) := by
  have h5 : ∀ p ∈ output.zip target, rowTop5Count p.1 p.2 = 1 := fun p hp =>
    rowTop5Count_eq_one p.1 p.2 (hhit p hp)
  have h1 : ∀ p ∈ output.zip target, rowTop1Hit p.1 p.2 = 1 := by
    intro p hp
    unfold rowTop1Hit
    rw [if_pos (hhit p hp)]
  have hplen : (output.zip target).length = target.length := by
    rw [List.length_zip, hlen, Nat.min_self]
  have hne : ((output.zip target).length : ℚ) ≠ 0 := by
    rw [hplen]
    exact_mod_cast hpos.ne'
  simp only [accuracy_np]
  rw [sum_map_cast_eq_length _ _ h1, sum_map_cast_eq_length _ _ h5, div_self hne]
  norm_num

theorem accuracy_np_fst_le_snd (output : List (List ℚ)) (target : List ℕ) :
    (accuracy_np output target).1 ≤ (accuracy_np output target).2 := by
  simp only [accuracy_np]
  have hsum : ((output.zip target).map fun p => (rowTop1Hit p.1 p.2 : ℚ)).sum ≤
      ((output.zip target).map fun p => (rowTop5Count p.1 p.2 : ℚ)).sum := by
    apply List.sum_le_sum
    intro p _
    exact_mod_cast rowTop1Hit_le_rowTop5Count p.1 p.2
  rcases Nat.eq_zero_or_pos (output.zip target).length with h0 | hpos
  · rw [h0]
    norm_num
  · have hn : (0:ℚ) < (output.zip target).length := by exact_mod_cast hpos
    have hdiv := (div_le_div_iff_of_pos_right hn).mpr hsum
    have := mul_le_mul_of_nonneg_left hdiv (by norm_num : (0:ℚ) ≤ 100)
    exact this

/-! ### Helper lemmas about the evaluation loop -/

theorem runLoop_eq (pf : ℕ) (l : List Batch) :
    runLoop pf l = (List.enumFrom 0 l).foldl (stepBatch pf) initState := rfl

theorem foldl_total_predictions (pf : ℕ) (l : List Batch) : ∀ (k : ℕ) (s : LoopState),
    ((List.enumFrom k l).foldl (stepBatch pf) s).total_predictions =
      s.total_predictions + l.length := by
  induction l with
  | nil => intro k s; simp
  | cons b l ih =>
    intro k s
    rw [List.enumFrom_cons, List.foldl_cons, ih]
    simp only [stepBatch, List.length_cons]
    omega

theorem foldl_elapsed_time (pf : ℕ) (l : List Batch) : ∀ (k : ℕ) (s : LoopState),
    ((List.enumFrom k l).foldl (stepBatch pf) s).elapsed_time =
      s.elapsed_time + (l.map Batch.inferNs).sum := by
  induction l with
  | nil => intro k s; simp
  | cons b l ih =>
    intro k s
    rw [List.enumFrom_cons, List.foldl_cons, ih]
    simp only [stepBatch, List.map_cons, List.sum_cons]
    omega

theorem foldl_printed (pf : ℕ) (l : List Batch) : ∀ (k : ℕ) (s : LoopState),
    ((List.enumFrom k l).foldl (stepBatch pf) s).printed =
      s.printed ++ (List.range' k l.length).filter (fun i => decide (i % pf = 0)) := by
  induction l with
  | nil => intro k s; simp
  | cons b l ih =>
    intro k s
    rw [List.enumFrom_cons, List.foldl_cons, ih]
    simp only [List.length_cons]
    rw [List.range'_succ, List.filter_cons]
    simp only [stepBatch, decide_eq_true_eq]
    by_cases hk : k % pf = 0
    · rw [if_pos hk, if_pos hk]
      simp
    · rw [if_neg hk, if_neg hk]

theorem foldl_top1 (pf : ℕ) (l : List Batch) : ∀ (k : ℕ) (s : LoopState),
    ((List.enumFrom k l).foldl (stepBatch pf) s).top1 =
      meterFold (fun b => (accuracy_np b.output b.target).1)
        (fun b => (b.size : ℚ)) l s.top1 := by
  induction l with
  | nil => intro k s; rfl
  | cons b l ih =>
    intro k s
    rw [List.enumFrom_cons, List.foldl_cons, ih]
    rfl

theorem foldl_top5 (pf : ℕ) (l : List Batch) : ∀ (k : ℕ) (s : LoopState),
    ((List.enumFrom k l).foldl (stepBatch pf) s).top5 =
      meterFold (fun b => (accuracy_np b.output b.target).2)
        (fun b => (b.size : ℚ)) l s.top5 := by
  induction l with
  | nil => intro k s; rfl
  | cons b l ih =>
    intro k s
    rw [List.enumFrom_cons, List.foldl_cons, ih]
    rfl

theorem meterFold_sum_count (f w : Batch → ℚ) (l : List Batch) :
    ∀ m : AverageMeter, (∀ b ∈ l, f b = 100) →
    (meterFold f w l m).sum = m.sum + 100 * (l.map w).sum ∧
    (meterFold f w l m).count = m.count + (l.map w).sum := by
  induction l with
  | nil => intro m _; simp [meterFold]
  | cons b l ih =>
    intro m h
    have hstep : meterFold f w (b :: l) m = meterFold f w l (m.update (f b) (w b)) := rfl
    obtain ⟨hs, hc⟩ := ih (m.update (f b) (w b)) (fun x hx => h x (List.mem_cons_of_mem b hx))
    rw [hstep]
    constructor
    · rw [hs]
      simp only [AverageMeter.update, List.map_cons, List.sum_cons,
        h b (List.mem_cons_self b l)]
      ring
    · rw [hc]
      simp only [AverageMeter.update, List.map_cons, List.sum_cons]
      ring

theorem endswith_dfg_not_onnx (p : String) (h : endswith p ".dfg" = true) :
    endswith p ".onnx" = false := by
  by_contra hc
  rw [Bool.not_eq_false] at hc
  unfold endswith at h hc
  simp only [List.isSuffixOf_iff_suffix] at h hc
  obtain ⟨t1, ht1⟩ := h
  obtain ⟨t2, ht2⟩ := hc
  have h4 : (['.', 'd', 'f', 'g'] : List Char).getLast? = some 'g' := rfl
  have h5 : (['.', 'o', 'n', 'n', 'x'] : List Char).getLast? = some 'x' := rfl
  have hg : p.data.getLast? = some 'g' := by
    rw [← ht1, List.getLast?_append, h4]
    rfl
  have hx : p.data.getLast? = some 'x' := by
    rw [← ht2, List.getLast?_append, h5]
    rfl
  rw [hg] at hx
  simp only [Option.some.injEq] at hx
  exact absurd hx (by decide)

/-! ### Claims -/

/-- C1 (code bug witness): the progress line's throughput field is
`batch_size / batch_time.avg` as the claim states, but the value printed
under the "ms/sample" label multiplies the average batch time (seconds) by
100 rather than 1000, so it is not the claimed milliseconds conversion:
at `batch_time.avg = 2` s and batch size 8 the code prints 25 where the
per-sample latency in milliseconds is 250. -/
theorem C1_ms_per_sample_bug :
    rate_avg 2 8 = 8 / 2 ∧
    ms_avg 2 8 = 25 ∧
    specMsPerSample 2 8 = 250 ∧
    ms_avg 2 8 ≠ specMsPerSample 2 8 :=
  ⟨rfl, by norm_num [ms_avg], by norm_num [specMsPerSample],
    by norm_num [ms_avg, specMsPerSample]⟩

/-- C2 (counterexample): with zero batches the final latency computation of
the source evaluates `elapsed_time / total_predictions` with
`total_predictions = 0` and fails with the language-level division-by-zero
fault; it does not produce the explicit "no batches processed" error the
claim describes. -/
theorem C2_counterexample :
    finalLatency (runLoop 500 []) = Except.error RunError.zeroDivisionFault ∧
    finalLatency (runLoop 500 []) ≠
      Except.error (RunError.explicitError "no batches processed") :=
  ⟨rfl, fun h => nomatch h⟩

/-- C2 (amended): if the loader yields zero batches, the final latency
computation raises the language-level `ZeroDivisionError`; no explicit
"no batches processed" error is produced. -/
theorem C2_empty_loader_division_fault (pf : ℕ) (batches : List Batch)
    (h : batches = []) :
    finalLatency (runLoop pf batches) = Except.error RunError.zeroDivisionFault := by
  subst h
  rfl

theorem C2_witness :
    ([] : List Batch) = [] ∧
    finalLatency (runLoop 7 []) = Except.error RunError.zeroDivisionFault :=
  ⟨rfl, C2_empty_loader_division_fault 7 [] rfl⟩

/-- C3 (counterexample): for the path "model.txt", which ends in neither
".dfg" nor ".onnx", the source leaves `graph` unbound and fails with the
`NameError` fault at the session constructor; it does not raise an explicit
"unsupported model format" error. -/
theorem C3_counterexample :
    resolveGraph (fun _ => []) "model.txt" = Except.error RunError.nameError ∧
    resolveGraph (fun _ => []) "model.txt" ≠
      Except.error (RunError.explicitError "unsupported model format") :=
  ⟨rfl, fun h => nomatch h⟩

/-- C3 (amended): when the model-input path ends in neither ".dfg" nor
".onnx", the program proceeds with the `graph` name unbound and aborts with
a `NameError` fault, not with an explicit "unsupported model format"
error. -/
theorem C3_unknown_extension_name_fault (fs : String → List ℕ) (p : String)
    (h1 : endswith p ".dfg" = false) (h2 : endswith p ".onnx" = false) :
    resolveGraph fs p = Except.error RunError.nameError := by
  simp [resolveGraph, h1, h2]

theorem C3_witness :
    endswith "model.txt" ".dfg" = false ∧ endswith "model.txt" ".onnx" = false ∧
    resolveGraph (fun _ => [0]) "model.txt" = Except.error RunError.nameError :=
  ⟨by decide, by decide,
    C3_unknown_extension_name_fault (fun _ => [0]) "model.txt" (by decide) (by decide)⟩

/-- C4: for output `[[0.9, 0.1, 0.0], [0.8, 0.1, 0.1]]` and target `[1, 0]`,
`accuracy_np` returns top1 = 50.0 (sample 0 predicts class 0 but the label
is 1; sample 1 predicts class 0 and the label is 0) and top5 = 100.0. -/
theorem C4_accuracy_np_scenario :
    accuracy_np [[(9:ℚ)/10, 1/10, 0], [(8:ℚ)/10, 1/10, 1/10]] [1, 0] = (50, 100) := by
  norm_num [accuracy_np, rowTop1Hit, rowTop5Count, max_indices, argsortRow,
    List.insertionSort, List.orderedInsert, List.range_succ]

/-- C5: when in every batch each sample's highest-scoring class index equals
its label, `accuracy_np` returns top1 = top5 = 100.0 for every batch, and
the running top-1 and top-5 averages after the loop equal 100.0 as well. -/
theorem C5_all_correct (pf : ℕ) (batches : List Batch) (hne : batches ≠ [])
    (hsz : ∀ b ∈ batches, b.output.length = b.target.length ∧ 0 < b.target.length)
    (hhit : ∀ b ∈ batches, ∀ p ∈ b.output.zip b.target,
      (max_indices p.1).head? = some p.2) :
    (∀ b ∈ batches, accuracy_np b.output b.target = (100, 100)) ∧
    (runLoop pf batches).top1.avg = 100 ∧ (runLoop pf batches).top5.avg = 100 := by
  have hacc : ∀ b ∈ batches, accuracy_np b.output b.target = (100, 100) := fun b hb =>
    accuracy_np_all_correct _ _ (hsz b hb).1 (hsz b hb).2 (hhit b hb)
  have hW : (0:ℚ) < (batches.map fun b => ((b.size : ℚ))).sum := by
    apply List.sum_pos
    · intro x hx
      obtain ⟨b, hb, rfl⟩ := List.mem_map.mp hx
      have hpos := (hsz b hb).2
      show (0:ℚ) < (b.target.length : ℚ)
      exact_mod_cast hpos
    · rw [Ne, List.map_eq_nil_iff]
      exact hne
  refine ⟨hacc, ?_, ?_⟩
  · rw [runLoop_eq, foldl_top1]
    obtain ⟨hs, hc⟩ := meterFold_sum_count (fun b => (accuracy_np b.output b.target).1)
      (fun b => (b.size : ℚ)) batches initState.top1
      (fun b hb => by simp [hacc b hb])
    unfold AverageMeter.avg
    rw [hs, hc]
    simp only [initState, AverageMeter.init]
    rw [zero_add, zero_add, mul_div_assoc, div_self hW.ne', mul_one]
  · rw [runLoop_eq, foldl_top5]
    obtain ⟨hs, hc⟩ := meterFold_sum_count (fun b => (accuracy_np b.output b.target).2)
      (fun b => (b.size : ℚ)) batches initState.top5
      (fun b hb => by simp [hacc b hb])
    unfold AverageMeter.avg
    rw [hs, hc]
    simp only [initState, AverageMeter.init]
    rw [zero_add, zero_add, mul_div_assoc, div_self hW.ne', mul_one]

theorem C5_witness :
    ([sampleBatch] : List Batch) ≠ [] ∧
    ((∀ b ∈ ([sampleBatch] : List Batch), accuracy_np b.output b.target = (100, 100)) ∧
     (runLoop 1 [sampleBatch]).top1.avg = 100 ∧ (runLoop 1 [sampleBatch]).top5.avg = 100) :=
  ⟨List.cons_ne_nil _ _,
    C5_all_correct 1 [sampleBatch] (List.cons_ne_nil _ _)
      (fun b hb => by
        rw [List.mem_singleton] at hb
        subst hb
        exact ⟨rfl, by decide⟩)
      (fun b hb => by
        rw [List.mem_singleton] at hb
        subst hb
        intro p hp
        rw [show sampleBatch.output.zip sampleBatch.target = [([(1:ℚ), 0], 0)] from rfl,
          List.mem_singleton] at hp
        subst hp
        norm_num [max_indices, argsortRow, List.insertionSort, List.orderedInsert,
          List.range_succ])⟩

/-- C6: after the loop over any finite batch sequence, `total_predictions`
equals the number of batches the loader yielded (one increment per batch),
never the number of individual samples. -/
theorem C6_total_predictions_counts_batches (pf : ℕ) (batches : List Batch) :
    (runLoop pf batches).total_predictions = batches.length := by
  rw [runLoop_eq, foldl_total_predictions]
  simp [initState]

/-- C7: after a non-empty run, `elapsed_time` is exactly the sum of the
per-batch inference-call durations (the data-loading time spent outside the
timed call never enters it), and the final printed latency equals
`elapsed_time / total_predictions / 1e6` milliseconds, i.e. the inference
duration sum divided by the batch count, scaled from nanoseconds. -/
theorem C7_final_latency (pf : ℕ) (batches : List Batch) (hne : batches ≠ []) :
    (runLoop pf batches).elapsed_time = (batches.map Batch.inferNs).sum ∧
    finalLatency (runLoop pf batches) =
      Except.ok (((batches.map Batch.inferNs).sum : ℚ) / (batches.length : ℚ)) ∧
    finalLatencyMs (runLoop pf batches) =
      ((batches.map Batch.inferNs).sum : ℚ) / (batches.length : ℚ) / 1000000 := by
  have he : (runLoop pf batches).elapsed_time = (batches.map Batch.inferNs).sum := by
    rw [runLoop_eq, foldl_elapsed_time]
    simp [initState]
  have ht : (runLoop pf batches).total_predictions = batches.length := by
    rw [runLoop_eq, foldl_total_predictions]
    simp [initState]
  have hne0 : (runLoop pf batches).total_predictions ≠ 0 := by
    rw [ht]
    intro h0
    exact hne (List.length_eq_zero.mp h0)
  refine ⟨he, ?_, ?_⟩
  · unfold finalLatency
    rw [if_neg hne0, he, ht]
  · unfold finalLatencyMs
    rw [he, ht]

theorem C7_witness :
    ([sampleBatch] : List Batch) ≠ [] ∧
    ((runLoop 500 [sampleBatch]).elapsed_time = ([sampleBatch].map Batch.inferNs).sum ∧
     finalLatency (runLoop 500 [sampleBatch]) =
       Except.ok ((([sampleBatch].map Batch.inferNs).sum : ℚ) /
         (([sampleBatch] : List Batch).length : ℚ)) ∧
     finalLatencyMs (runLoop 500 [sampleBatch]) =
       (([sampleBatch].map Batch.inferNs).sum : ℚ) /
         (([sampleBatch] : List Batch).length : ℚ) / 1000000) :=
  ⟨List.cons_ne_nil _ _, C7_final_latency 500 [sampleBatch] (List.cons_ne_nil _ _)⟩

/-- C8: a progress line is emitted exactly for the batches whose zero-based
index is a multiple of `print_freq`; index 0 always prints, and
`print_freq = 1` prints one line per batch. -/
theorem C8_progress_indices (pf : ℕ) (batches : List Batch) (hpf : 1 ≤ pf) :
    ((runLoop pf batches).printed =
      (List.range batches.length).filter (fun i => decide (i % pf = 0))) ∧
    (∀ i, i ∈ (runLoop pf batches).printed ↔ i < batches.length ∧ i % pf = 0) ∧
    (batches ≠ [] → 0 ∈ (runLoop pf batches).printed) ∧
    (pf = 1 → (runLoop pf batches).printed = List.range batches.length) := by
  have hp : (runLoop pf batches).printed =
      (List.range batches.length).filter (fun i => decide (i % pf = 0)) := by
    rw [runLoop_eq, foldl_printed, List.range_eq_range']
    simp [initState]
  refine ⟨hp, ?_, ?_, ?_⟩
  · intro i
    rw [hp, List.mem_filter, List.mem_range, decide_eq_true_eq]
  · intro hne
    rw [hp, List.mem_filter]
    refine ⟨List.mem_range.mpr (List.length_pos.mpr hne), by simp⟩
  · intro h1
    subst h1
    rw [hp]
    apply List.filter_eq_self.mpr
    intro a _
    simp [Nat.mod_one]

theorem C8_witness :
    1 ≤ 1 ∧
    (runLoop 1 [sampleBatch, sampleBatch]).printed =
      List.range ([sampleBatch, sampleBatch] : List Batch).length :=
  ⟨le_refl 1,
    (C8_progress_indices 1 [sampleBatch, sampleBatch] (le_refl 1)).2.2.2 rfl⟩

/-- C9: a model-input path ending in ".dfg" has its file contents read fully
into memory and those bytes passed to the session constructor, while a path
ending in ".onnx" is passed to the session constructor as the path string
itself. -/
theorem C9_model_input_dispatch (fs : String → List ℕ) (p : String) :
    (endswith p ".dfg" = true → resolveGraph fs p = Except.ok (Graph.bytes (fs p))) ∧
    (endswith p ".onnx" = true → resolveGraph fs p = Except.ok (Graph.path p)) := by
  constructor
  · intro h
    have h2 := endswith_dfg_not_onnx p h
    simp [resolveGraph, h, h2]
  · intro h
    simp [resolveGraph, h]

theorem C9_witness :
    (endswith "m.dfg" ".dfg" = true ∧
      resolveGraph (fun _ => [7, 7]) "m.dfg" = Except.ok (Graph.bytes [7, 7])) ∧
    (endswith "m.onnx" ".onnx" = true ∧
      resolveGraph (fun _ => [7, 7]) "m.onnx" = Except.ok (Graph.path "m.onnx")) :=
  ⟨⟨by decide, (C9_model_input_dispatch (fun _ => [7, 7]) "m.dfg").1 (by decide)⟩,
   ⟨by decide, (C9_model_input_dispatch (fun _ => [7, 7]) "m.onnx").2 (by decide)⟩⟩

/-- C10: for every output array with at least one row and at least one
class, and every matching target vector, the top1 value returned by
`accuracy_np` is at most the top5 value. -/
theorem C10_top1_le_top5 (output : List (List ℚ)) (target : List ℕ)
    (_hrows : 0 < output.length) (_hclasses : ∀ row ∈ output, 0 < row.length)
    (_hlen : output.length = target.length) :
    (accuracy_np output target).1 ≤ (accuracy_np output target).2 :=
  accuracy_np_fst_le_snd output target

theorem C10_witness :
    0 < ([[(1:ℚ), 0]] : List (List ℚ)).length ∧
    (accuracy_np [[(1:ℚ), 0]] [0]).1 ≤ (accuracy_np [[(1:ℚ), 0]] [0]).2 :=
  ⟨by decide,
    C10_top1_le_top5 [[(1:ℚ), 0]] [0] (by decide)
      (by intro row hrow; rw [List.mem_singleton] at hrow; subst hrow; decide)
      (by decide)⟩
